import Mathlib

/-!
Shallow embedding of the `ocspstapling` Go package (files `errors.go` and
`ocspstapling.go`).

The external collaborators (the X.509 decoder, the OCSP codec and the HTTP
transport) are modelled as an explicit environment of oracle functions
(`FetchEnv`); the package's own code — `fetchOCSP`, `ocspStaplingCanBeUsed`,
`NewStapling`, `RunOCSPRenewal` and `Certificate` — is translated statement by
statement.  Machine time (`time.Duration`, `time.Time`) is modelled as `Int`
nanoseconds / nanoseconds-since-epoch, matching Go's representation.  A Go
runtime panic (out-of-range slice index) is modelled as `Option.none`.
-/

namespace OcspStapling

/-- A byte sequence (`[]byte`). -/
abbrev ByteSeq := List Nat

/-- The part of `x509.Certificate` that the package reads: the list of OCSP
responder URLs (`OCSPServer`) plus an abstract serial distinguishing
certificates. -/
structure X509Cert where
  ocspServer : List String
  serial : Nat
deriving DecidableEq

/-- The part of `ocsp.Response` that the package reads: the `NextUpdate`
timestamp (nanoseconds since epoch, as `Int`). -/
structure OCSPResponse where
  nextUpdate : Int
deriving DecidableEq

/-- An HTTP response as the package consumes it: `body = none` models a body
whose read (`io.ReadAll`) fails; `closeOk = false` models `Body.Close`
returning an error. -/
structure HTTPResponse where
  body : Option ByteSeq
  closeOk : Bool
deriving DecidableEq

/-- The environment of external collaborators for one fetch:
`parseCert` models `x509.ParseCertificate`, `createRequest` models
`ocsp.CreateRequest`, `post` models `httpClient.Post` (`none` = transport
error), `parseResponse` models `ocsp.ParseResponse`.  `none` models a non-nil
Go error. -/
structure FetchEnv where
  parseCert : ByteSeq → Option X509Cert
  createRequest : X509Cert → X509Cert → Option ByteSeq
  post : String → ByteSeq → Option HTTPResponse
  parseResponse : ByteSeq → X509Cert → Option OCSPResponse

/-- The sentinel error values of `errors.go`. -/
inductive OCSPErr where
  | invalidCertificate
  | noOCSPServerDefined
  | couldNotCreateOCSPRequest
  | couldNotPostOCSPRequest
  | couldNotReadOCSPResponse
  | couldNotCloseBody
  | couldNotParseResponse
deriving DecidableEq

/-- `tls.Certificate` as the package uses it: `certificate` is the DER chain
(`Certificate [][]byte`, index 0 = leaf, index 1 = issuer) and `ocspStaple` is
the `OCSPStaple []byte` field (`none` = nil slice). -/
structure TLSCertificate where
  certificate : List ByteSeq
  ocspStaple : Option ByteSeq
deriving DecidableEq

/-- The Go triple returned by `fetchOCSP` — `([]byte, time.Time, error)` —
plus one instrumentation field: `posted` records whether `httpClient.Post`
was invoked during the call. -/
structure FetchResult where
  resp : Option ByteSeq
  renewAt : Int
  err : Option OCSPErr
  posted : Bool
deriving DecidableEq

/-- `time.Millisecond` in nanoseconds. -/
def millisecond : Int := 1000000

/-- `time.Second` in nanoseconds. -/
def second : Int := 1000000000

/-- `time.Minute` in nanoseconds. -/
def minute : Int := 60000000000

/-- `const retry = 10` from `ocspstapling.go`. -/
def retry : Nat := 10

/-- Embedding of `fetchOCSP(certificate tls.Certificate, httpClient *http.Client)`.
`none` models a Go panic (indexing `certificate.Certificate[0]` on an empty
chain).  The steps follow the source order exactly:
parse leaf → check `OCSPServer` non-empty → take first responder URL →
check chain length → parse issuer → `ocsp.CreateRequest` → `Post` →
`io.ReadAll` → `Body.Close` → `ocsp.ParseResponse`. -/
def fetchOCSP (env : FetchEnv) (certificate : TLSCertificate) : Option FetchResult :=
  match certificate.certificate with
  | [] => none
  | leafBytes :: restChain =>
    match env.parseCert leafBytes with
    | none => some { resp := none, renewAt := 0, err := some OCSPErr.invalidCertificate, posted := false }
    | some x509Cert =>
      if x509Cert.ocspServer.length = 0 then
        some { resp := none, renewAt := 0, err := some OCSPErr.noOCSPServerDefined, posted := false }
      else
        let ocspServer := x509Cert.ocspServer.headD ""
        if certificate.certificate.length ≤ 1 then
          some { resp := none, renewAt := 0, err := some OCSPErr.invalidCertificate, posted := false }
        else
          match restChain with
          | [] => none
          | issuerBytes :: _ =>
            match env.parseCert issuerBytes with
            | none => some { resp := none, renewAt := 0, err := some OCSPErr.invalidCertificate, posted := false }
            | some x509Issuer =>
              match env.createRequest x509Cert x509Issuer with
              | none => some { resp := none, renewAt := 0, err := some OCSPErr.couldNotCreateOCSPRequest, posted := false }
              | some ocspRequest =>
                match env.post ocspServer ocspRequest with
                | none => some { resp := none, renewAt := 0, err := some OCSPErr.couldNotPostOCSPRequest, posted := true }
                | some ocspResponse =>
                  match ocspResponse.body with
                  | none => some { resp := none, renewAt := 0, err := some OCSPErr.couldNotReadOCSPResponse, posted := true }
                  | some ocspResponseData =>
                    if ocspResponse.closeOk = false then
                      some { resp := some ocspResponseData, renewAt := 0, err := some OCSPErr.couldNotCloseBody, posted := true }
                    else
                      match env.parseResponse ocspResponseData x509Issuer with
                      | none => some { resp := none, renewAt := 0, err := some OCSPErr.couldNotParseResponse, posted := true }
                      | some response =>
                        some { resp := some ocspResponseData, renewAt := response.nextUpdate, err := none, posted := true }

/-- The shared state of a `Stapling` struct: the certificate bundle and the
`useOCSPStapling` flag.  (The `httpClient` and the `sync.RWMutex` carry no
data relevant to the state; the lock discipline is modelled separately by
`tickTrace`.) -/
structure Stapling where
  certificate : TLSCertificate
  useOCSPStapling : Bool
deriving DecidableEq

/-- Embedding of the loop body of `ocspStaplingCanBeUsed`.
`fuel` is the number of loop iterations left (`retry - i`), `i` the loop
index, `d` the duration currently armed on `retryTimer`, `waits` the
instrumented list of durations waited so far (one entry per fetch attempt
performed).  `cancelled i = true` models `ctx.Done()` being ready when the
select for iteration `i` runs; `envs i` is the external world at attempt `i`.
The overall `none` models a panic inside `fetchOCSP`. -/
def ocspStaplingCanBeUsedAux (envs : Nat → FetchEnv) (cancelled : Nat → Bool)
    (certificate : TLSCertificate) : Nat → Nat → Int → List Int → Option (Bool × List Int)
  | 0, _, _, waits => some (false, waits)
  | fuel + 1, i, d, waits =>
    if cancelled i then some (false, waits)
    else
      match fetchOCSP (envs i) certificate with
      | none => none
      | some r =>
        match r.err with
        | none => some (true, waits ++ [d])
        | some e =>
          if e ≠ OCSPErr.couldNotPostOCSPRequest then some (false, waits ++ [d])
          else
            ocspStaplingCanBeUsedAux envs cancelled certificate fuel (i + 1)
              (second * ((i : Int) + 1)) (waits ++ [d])

/-- Embedding of `ocspStaplingCanBeUsed(ctx, certificate)`: up to `retry`
attempts, the timer initially armed with `time.Millisecond`, reset to
`time.Second * (i+1)` after a transient failure at attempt `i`.  Returns the
Go boolean together with the instrumented list of waits. -/
def ocspStaplingCanBeUsed (envs : Nat → FetchEnv) (cancelled : Nat → Bool)
    (certificate : TLSCertificate) : Option (Bool × List Int) :=
  ocspStaplingCanBeUsedAux envs cancelled certificate retry 0 millisecond []

/-- Embedding of `NewStapling(ctx, certificate)`: stores the certificate and
seeds `useOCSPStapling` from the capability probe. -/
def NewStapling (envs : Nat → FetchEnv) (cancelled : Nat → Bool)
    (certificate : TLSCertificate) : Option Stapling :=
  Option.map (fun res => { certificate := certificate, useOCSPStapling := res.1 })
    (ocspStaplingCanBeUsed envs cancelled certificate)

/-- Embedding of `Certificate()`: snapshot of the internal certificate under
the read lock; the returned error is the literal `nil` of the source. -/
def Certificate (s : Stapling) : TLSCertificate × Option OCSPErr :=
  (s.certificate, none)

/-- The state carried across iterations of the `RunOCSPRenewal` loop: the
shared `Stapling` fields plus the loop-local `errorCount` and the duration
currently armed on `timer`. -/
structure SchedState where
  stapling : Stapling
  errorCount : Nat
  timerDur : Int
deriving DecidableEq

/-- Outcome of one `timer.C` iteration of the renewal loop: either the loop
continues with an updated state, or the function returns (`stop`). -/
inductive TickResult where
  | cont (st : SchedState)
  | stop (st : SchedState)
deriving DecidableEq

/-- The state carried by a `TickResult`, whichever constructor. -/
def TickResult.state : TickResult → SchedState
  | TickResult.cont st => st
  | TickResult.stop st => st

/-- Embedding of one `case <-timer.C` iteration of `RunOCSPRenewal`:
lock; `fetchOCSP`; on `ErrCouldNotPostOCSPRequest` unlock and either return
(`errorCount > retry`) or increment `errorCount` and re-arm the timer for a
minute; on any other error set `useOCSPStapling = false`, unlock and return;
on success install the staple, reset `errorCount`, re-arm the timer for
`time.Until(renewAt) = renewAt - now`, unlock.  `none` models a panic inside
`fetchOCSP`. -/
def renewalTick (env : FetchEnv) (now : Int) (st : SchedState) : Option TickResult :=
  match fetchOCSP env st.stapling.certificate with
  | none => none
  | some r =>
    match r.err with
    | some e =>
      if e = OCSPErr.couldNotPostOCSPRequest then
        if st.errorCount > retry then some (TickResult.stop st)
        else some (TickResult.cont { st with errorCount := st.errorCount + 1, timerDur := minute })
      else
        some (TickResult.stop { st with stapling := { st.stapling with useOCSPStapling := false } })
    | none =>
      some (TickResult.cont
        { st with
          stapling :=
            { st.stapling with
              certificate := { st.stapling.certificate with ocspStaple := r.resp } }
          errorCount := 0
          timerDur := r.renewAt - now })

/-- One event delivered to the renewal loop's `select`: either `ctx.Done()`
fires, or `timer.C` fires at absolute time `now` with the external world
`env`. -/
inductive SchedEvent where
  | cancel
  | tick (env : FetchEnv) (now : Int)

/-- Embedding of the `for { select { ... } }` loop of `RunOCSPRenewal`,
driven by a finite schedule of events.  A `cancel` event or a `stop` tick
makes the function return (remaining events are ignored — the loop is gone);
an exhausted schedule leaves the loop parked on its timer with the current
state.  `none` models a panic. -/
def runEvents : List SchedEvent → SchedState → Option SchedState
  | [], st => some st
  | SchedEvent.cancel :: _, st => some st
  | SchedEvent.tick env now :: rest, st =>
    match renewalTick env now st with
    | none => none
    | some (TickResult.cont st') => runEvents rest st'
    | some (TickResult.stop st') => some st'

/-- Embedding of `RunOCSPRenewal(ctx)`: immediate return when
`useOCSPStapling` is false; otherwise the loop starts with `errorCount = 0`
and the timer armed for one second. -/
def RunOCSPRenewal (s : Stapling) (events : List SchedEvent) : Option Stapling :=
  if s.useOCSPStapling = false then some s
  else
    Option.map SchedState.stapling
      (runEvents events { stapling := s, errorCount := 0, timerDur := second })

/-- Atomic actions of one renewal tick, in source order, used to model the
extent of the `sync.RWMutex` critical section. -/
inductive TickAction where
  | lockAcquire
  | fetchCall
  | installStaple
  | flipFlag
  | timerReset
  | lockRelease
deriving DecidableEq

/-- The sequence of actions one `case <-timer.C` iteration performs, in the
order the source executes them: `s.lock.Lock()` (line 92) precedes the
`fetchOCSP` call (line 94); the transient branch unlocks (line 98) before
resetting the timer (line 105); the fatal branch flips the flag (line 109)
then unlocks (line 110); the success branch installs the staple (line 116),
resets the timer (line 122) and unlocks (line 124). -/
def tickTrace (env : FetchEnv) (st : SchedState) : Option (List TickAction) :=
  match fetchOCSP env st.stapling.certificate with
  | none => none
  | some r =>
    match r.err with
    | some e =>
      if e = OCSPErr.couldNotPostOCSPRequest then
        if st.errorCount > retry then
          some [TickAction.lockAcquire, TickAction.fetchCall, TickAction.lockRelease]
        else
          some [TickAction.lockAcquire, TickAction.fetchCall, TickAction.lockRelease,
            TickAction.timerReset]
      else
        some [TickAction.lockAcquire, TickAction.fetchCall, TickAction.flipFlag,
          TickAction.lockRelease]
    | none =>
      some [TickAction.lockAcquire, TickAction.fetchCall, TickAction.installStaple,
        TickAction.timerReset, TickAction.lockRelease]

/-- `attemptTransient envs certificate j`: fetch attempt `j` fails with the
transient transport error `ErrCouldNotPostOCSPRequest`. -/
def attemptTransient (envs : Nat → FetchEnv) (certificate : TLSCertificate) (j : Nat) : Prop :=
  ∃ fr, fetchOCSP (envs j) certificate = some fr ∧ fr.err = some OCSPErr.couldNotPostOCSPRequest

/-- `attemptSucceeds envs certificate j`: fetch attempt `j` returns a nil
error. -/
def attemptSucceeds (envs : Nat → FetchEnv) (certificate : TLSCertificate) (j : Nat) : Prop :=
  ∃ fr, fetchOCSP (envs j) certificate = some fr ∧ fr.err = none

/-- The list of timer waits the prober performs for `n` fetch attempts when
the loop index starts at `i` with the timer armed for `d`: the first attempt
waits `d`, attempt `i + 1 + j` waits `second * (i + 1 + j)`. -/
def auxWaitsN (i : Nat) (d : Int) : Nat → List Int
  | 0 => []
  | n + 1 => d :: auxWaitsN (i + 1) (second * ((i : Int) + 1)) n

/-! Concrete fixtures: a two-certificate bundle and environments realizing
each outcome of the external collaborators. -/

/-- DER bytes of the concrete leaf certificate. -/
def wLeafBytes : ByteSeq := [0]

/-- DER bytes of the concrete issuer certificate. -/
def wIssuerBytes : ByteSeq := [1]

/-- The concrete parsed leaf: one OCSP responder URL. -/
def wLeaf : X509Cert := { ocspServer := ["http://ocsp.example"], serial := 0 }

/-- The concrete parsed issuer: no OCSP responder URL. -/
def wIssuer : X509Cert := { ocspServer := [], serial := 1 }

/-- A decoder recognizing exactly the two concrete certificates. -/
def wParse : ByteSeq → Option X509Cert := fun b =>
  if b = wLeafBytes then some wLeaf
  else if b = wIssuerBytes then some wIssuer
  else none

/-- The concrete two-entry bundle (leaf, issuer), no staple installed. -/
def wBundle : TLSCertificate := { certificate := [wLeafBytes, wIssuerBytes], ocspStaple := none }

/-- A single-entry bundle holding only the leaf. -/
def wBundleLeafOnly : TLSCertificate := { certificate := [wLeafBytes], ocspStaple := none }

/-- Environment in which everything succeeds; the responder's answer has
`NextUpdate = 100`. -/
def wEnvOk : FetchEnv :=
  { parseCert := wParse
    createRequest := fun _ _ => some [9]
    post := fun _ _ => some { body := some [7, 7], closeOk := true }
    parseResponse := fun _ _ => some { nextUpdate := 100 } }

/-- Environment whose transport always fails (connection refused). -/
def wEnvTransient : FetchEnv :=
  { parseCert := wParse
    createRequest := fun _ _ => some [9]
    post := fun _ _ => none
    parseResponse := fun _ _ => none }

/-- Environment in which the body is read fully but `Body.Close` fails. -/
def wEnvCloseFail : FetchEnv :=
  { parseCert := wParse
    createRequest := fun _ _ => some [9]
    post := fun _ _ => some { body := some [7, 7], closeOk := false }
    parseResponse := fun _ _ => some { nextUpdate := 100 } }

/-- Environment in which the transport succeeds but the response bytes are
rejected by the OCSP codec (a structural error). -/
def wEnvBadResp : FetchEnv :=
  { parseCert := wParse
    createRequest := fun _ _ => some [9]
    post := fun _ _ => some { body := some [7, 7], closeOk := true }
    parseResponse := fun _ _ => none }

/-- A decoder that parses every byte sequence into a certificate without any
OCSP responder URL. -/
def wParseNoResponder : ByteSeq → Option X509Cert := fun _ =>
  some { ocspServer := [], serial := 2 }

/-- Environment whose decoder yields responder-less certificates. -/
def wEnvNoResponder : FetchEnv :=
  { parseCert := wParseNoResponder
    createRequest := fun _ _ => none
    post := fun _ _ => none
    parseResponse := fun _ _ => none }

/-- The scheduler state at the first tick: flag on, no errors, timer armed
for the initial second. -/
def wStT : SchedState :=
  { stapling := { certificate := wBundle, useOCSPStapling := true }
    errorCount := 0
    timerDur := second }

/-- Exhaustive case analysis of one renewal tick: success installs the staple
and re-arms for `renewAt - now`; a transient error either stops the loop
(counter above the ceiling) or increments the counter and re-arms for a
minute; any other error flips the flag off and stops. -/
lemma renewalTick_cases (env : FetchEnv) (now : Int) (st : SchedState) (res : TickResult)
    (h : renewalTick env now st = some res) :
    ∃ fr, fetchOCSP env st.stapling.certificate = some fr ∧
      ((fr.err = none ∧ res = TickResult.cont
          { st with
            stapling :=
              { st.stapling with
                certificate := { st.stapling.certificate with ocspStaple := fr.resp } }
            errorCount := 0
            timerDur := fr.renewAt - now })
       ∨ (fr.err = some OCSPErr.couldNotPostOCSPRequest ∧ st.errorCount > retry ∧
           res = TickResult.stop st)
       ∨ (fr.err = some OCSPErr.couldNotPostOCSPRequest ∧ ¬ st.errorCount > retry ∧
           res = TickResult.cont { st with errorCount := st.errorCount + 1, timerDur := minute })
       ∨ (∃ e, fr.err = some e ∧ e ≠ OCSPErr.couldNotPostOCSPRequest ∧
           res = TickResult.stop
             { st with stapling := { st.stapling with useOCSPStapling := false } })) := by
  rcases hf : fetchOCSP env st.stapling.certificate with _ | fr
  · rw [renewalTick, hf] at h
    exact Option.noConfusion h
  · refine ⟨fr, rfl, ?_⟩
    rw [renewalTick, hf] at h
    rcases he : fr.err with _ | e
    · simp only [he, Option.some.injEq] at h
      exact Or.inl ⟨rfl, h.symm⟩
    · simp only [he] at h
      by_cases htr : e = OCSPErr.couldNotPostOCSPRequest
      · rw [if_pos htr] at h
        by_cases hcnt : st.errorCount > retry
        · rw [if_pos hcnt] at h
          injection h with h
          exact Or.inr (Or.inl ⟨by rw [htr], hcnt, h.symm⟩)
        · rw [if_neg hcnt] at h
          injection h with h
          exact Or.inr (Or.inr (Or.inl ⟨by rw [htr], hcnt, h.symm⟩))
      · rw [if_neg htr] at h
        injection h with h
        exact Or.inr (Or.inr (Or.inr ⟨e, rfl, htr, h.symm⟩))

/-- C1 (amended): for a bundle with fewer than 2 chain entries, `fetchOCSP`
never issues an HTTP POST; with exactly one entry it returns
`ErrInvalidCertificate` or `ErrNoOCSPServerDefined`, and with zero entries it
panics (out-of-range index) rather than returning an error. -/
theorem fetchOCSP_short_chain_fatal_no_network (env : FetchEnv) (certificate : TLSCertificate)
    (h : certificate.certificate.length < 2) :
    (certificate.certificate.length = 0 → fetchOCSP env certificate = none)
    ∧ (∀ r, fetchOCSP env certificate = some r →
        r.posted = false ∧
          (r.err = some OCSPErr.invalidCertificate ∨ r.err = some OCSPErr.noOCSPServerDefined)) := by
  rcases hchain : certificate.certificate with _ | ⟨leafBytes, _ | ⟨b, t⟩⟩
  · refine ⟨fun _ => by simp [fetchOCSP, hchain], fun r hr => ?_⟩
    simp [fetchOCSP, hchain] at hr
  · refine ⟨fun h0 => by simp at h0, fun r hr => ?_⟩
    rcases hp : env.parseCert leafBytes with _ | c
    · simp [fetchOCSP, hchain, hp] at hr
      rw [← hr]
      exact ⟨rfl, Or.inl rfl⟩
    · by_cases hlen : c.ocspServer.length = 0
      · simp [fetchOCSP, hchain, hp, hlen] at hr
        rw [← hr]
        exact ⟨rfl, Or.inr rfl⟩
      · simp [fetchOCSP, hchain, hp, hlen] at hr
        rw [← hr]
        exact ⟨rfl, Or.inl rfl⟩
  · rw [hchain] at h
    simp only [List.length_cons] at h
    omega

/-- C1 counterexample: a one-entry bundle whose leaf parses and declares no
OCSP responder makes `fetchOCSP` return `ErrNoOCSPServerDefined`, not
`ErrInvalidCertificate`. -/
theorem fetchOCSP_single_entry_not_invalidCertificate :
    wBundleLeafOnly.certificate.length < 2
    ∧ fetchOCSP wEnvNoResponder wBundleLeafOnly =
        some { resp := none, renewAt := 0, err := some OCSPErr.noOCSPServerDefined, posted := false }
    ∧ OCSPErr.noOCSPServerDefined ≠ OCSPErr.invalidCertificate := by decide

/-- C1 witness: the amended theorem applied to the concrete one-entry
bundle. -/
theorem fetchOCSP_short_chain_fatal_no_network_witness :
    (FetchResult.mk none 0 (some OCSPErr.noOCSPServerDefined) false).posted = false
    ∧ ((FetchResult.mk none 0 (some OCSPErr.noOCSPServerDefined) false).err =
          some OCSPErr.invalidCertificate
       ∨ (FetchResult.mk none 0 (some OCSPErr.noOCSPServerDefined) false).err =
          some OCSPErr.noOCSPServerDefined) :=
  (fetchOCSP_short_chain_fatal_no_network wEnvNoResponder wBundleLeafOnly (by decide)).2
    (FetchResult.mk none 0 (some OCSPErr.noOCSPServerDefined) false) (by decide)

/-- C4 (amended): a successful tick installs the raw staple and re-arms the
timer for exactly `renewAt - now`, with no non-negativity clamp. -/
theorem success_tick_installs_and_arms_unclamped (env : FetchEnv) (now : Int) (st : SchedState)
    (fr : FetchResult) (hf : fetchOCSP env st.stapling.certificate = some fr)
    (he : fr.err = none) :
    renewalTick env now st = some (TickResult.cont
      { st with
        stapling :=
          { st.stapling with
            certificate := { st.stapling.certificate with ocspStaple := fr.resp } }
        errorCount := 0
        timerDur := fr.renewAt - now }) := by
  simp only [renewalTick, hf, he]

/-- C4 counterexample: with the responder's `NextUpdate` in the past
(`renewAt = 100`, `now = 200`) the tick arms the timer for the negative
duration `-100`; the armed duration is not clamped to non-negative. -/
theorem success_tick_negative_timer_counterexample :
    renewalTick wEnvOk 200 wStT = some (TickResult.cont
      { stapling :=
          { certificate := { certificate := [wLeafBytes, wIssuerBytes], ocspStaple := some [7, 7] }
            useOCSPStapling := true }
        errorCount := 0
        timerDur := -100 })
    ∧ (-100 : Int) < 0 := by decide

/-- C4 witness: the amended theorem applied to the concrete successful
environment at `now = 0`. -/
theorem success_tick_installs_and_arms_unclamped_witness :
    renewalTick wEnvOk 0 wStT = some (TickResult.cont
      { wStT with
        stapling :=
          { wStT.stapling with
            certificate := { wStT.stapling.certificate with ocspStaple := some [7, 7] } }
        errorCount := 0
        timerDur := (100 : Int) - 0 }) :=
  success_tick_installs_and_arms_unclamped wEnvOk 0 wStT
    { resp := some [7, 7], renewAt := 100, err := none, posted := true } (by decide) rfl

/-- C8: `Certificate()` always succeeds — it returns the current bundle
snapshot and its error component is the literal nil. -/
theorem certificate_always_succeeds (s : Stapling) :
    (Certificate s).2 = none ∧ (Certificate s).1 = s.certificate :=
  ⟨rfl, rfl⟩

/-- One tick changes at most the `ocspStaple` field of the bundle: the chain
bytes and every other bundle field survive unchanged. -/
lemma renewalTick_frame (env : FetchEnv) (now : Int) (st : SchedState) (res : TickResult)
    (h : renewalTick env now st = some res) :
    res.state.stapling.certificate =
      { st.stapling.certificate with ocspStaple := res.state.stapling.certificate.ocspStaple } := by
  rcases renewalTick_cases env now st res h with ⟨fr, _, hcase | hcase | hcase | hcase⟩
  · rw [hcase.2]
    rfl
  · rw [hcase.2.2]
    rfl
  · rw [hcase.2.2]
    rfl
  · obtain ⟨e, _, _, hres⟩ := hcase
    rw [hres]
    rfl

/-- One tick never turns the `useOCSPStapling` flag from false to true. -/
lemma renewalTick_flag_mono (env : FetchEnv) (now : Int) (st : SchedState) (res : TickResult)
    (h : renewalTick env now st = some res)
    (hflag : res.state.stapling.useOCSPStapling = true) :
    st.stapling.useOCSPStapling = true := by
  rcases renewalTick_cases env now st res h with ⟨fr, _, hcase | hcase | hcase | hcase⟩
  · rw [hcase.2] at hflag
    exact hflag
  · rw [hcase.2.2] at hflag
    exact hflag
  · rw [hcase.2.2] at hflag
    exact hflag
  · obtain ⟨e, _, _, hres⟩ := hcase
    rw [hres] at hflag
    exact absurd hflag (by simp [TickResult.state])

/-- Chain preservation lifted to a whole run of the loop. -/
lemma runEvents_chain (events : List SchedEvent) (st st' : SchedState)
    (h : runEvents events st = some st') :
    st'.stapling.certificate.certificate = st.stapling.certificate.certificate := by
  induction events generalizing st with
  | nil =>
    simp only [runEvents, Option.some.injEq] at h
    rw [← h]
  | cons e rest ih =>
    cases e with
    | cancel =>
      simp only [runEvents, Option.some.injEq] at h
      rw [← h]
    | tick env now =>
      simp only [runEvents] at h
      rcases ht : renewalTick env now st with _ | res
      · rw [ht] at h
        exact Option.noConfusion h
      · rw [ht] at h
        have hframe := renewalTick_frame env now st res ht
        cases res with
        | cont stc =>
          have := ih stc h
          rw [this]
          have : stc.stapling.certificate.certificate = st.stapling.certificate.certificate := by
            rw [show stc = (TickResult.cont stc).state from rfl, hframe]
          exact this
        | stop sts =>
          simp only [Option.some.injEq] at h
          rw [← h]
          rw [show sts = (TickResult.stop sts).state from rfl, hframe]

/-- Flag monotonicity lifted to a whole run of the loop. -/
lemma runEvents_flag_mono (events : List SchedEvent) (st st' : SchedState)
    (h : runEvents events st = some st')
    (hflag : st'.stapling.useOCSPStapling = true) :
    st.stapling.useOCSPStapling = true := by
  induction events generalizing st with
  | nil =>
    simp only [runEvents, Option.some.injEq] at h
    rw [← h] at hflag
    exact hflag
  | cons e rest ih =>
    cases e with
    | cancel =>
      simp only [runEvents, Option.some.injEq] at h
      rw [← h] at hflag
      exact hflag
    | tick env now =>
      simp only [runEvents] at h
      rcases ht : renewalTick env now st with _ | res
      · rw [ht] at h
        exact Option.noConfusion h
      · rw [ht] at h
        cases res with
        | cont stc =>
          exact renewalTick_flag_mono env now st (TickResult.cont stc) ht (ih stc h)
        | stop sts =>
          simp only [Option.some.injEq] at h
          rw [← h] at hflag
          exact renewalTick_flag_mono env now st (TickResult.stop sts) ht hflag

/-- C3: the consecutive-transient-error counter resets to zero on a
successful fetch, increments exactly on transient errors below the ceiling,
and once it exceeds the ceiling (`retry = 10`) the next transient tick makes
the scheduler return with the state — flag, bundle and last installed
staple — untouched, so `Certificate()` still serves that bundle. -/
theorem renewal_counter_reset_increment_stop (env : FetchEnv) (now : Int) (st : SchedState)
    (fr : FetchResult) (hf : fetchOCSP env st.stapling.certificate = some fr) :
    (fr.err = none → renewalTick env now st = some (TickResult.cont
      { st with
        stapling :=
          { st.stapling with
            certificate := { st.stapling.certificate with ocspStaple := fr.resp } }
        errorCount := 0
        timerDur := fr.renewAt - now }))
    ∧ (fr.err = some OCSPErr.couldNotPostOCSPRequest → st.errorCount ≤ retry →
        renewalTick env now st = some (TickResult.cont
          { st with errorCount := st.errorCount + 1, timerDur := minute }))
    ∧ (fr.err = some OCSPErr.couldNotPostOCSPRequest → st.errorCount > retry →
        renewalTick env now st = some (TickResult.stop st)
        ∧ Certificate st.stapling = (st.stapling.certificate, none))
    ∧ (∀ st', renewalTick env now st = some (TickResult.cont st') →
        st'.errorCount = st.errorCount + 1 →
        fr.err = some OCSPErr.couldNotPostOCSPRequest) := by
  refine ⟨fun he => ?_, fun he hc => ?_, fun he hc => ?_, fun st' hcont hinc => ?_⟩
  · simp only [renewalTick, hf, he]
  · simp only [renewalTick, hf, he]
    simp [show ¬ st.errorCount > retry from by omega]
  · refine ⟨?_, rfl⟩
    simp only [renewalTick, hf, he]
    simp [hc]
  · rcases renewalTick_cases env now st (TickResult.cont st') hcont with
      ⟨fr', hf', hcase | hcase | hcase | hcase⟩
    · obtain ⟨-, hres⟩ := hcase
      injection hres with hres
      rw [hres] at hinc
      have h0 : (0 : Nat) = st.errorCount + 1 := hinc
      omega
    · exact absurd hcase.2.2 (by simp)
    · rw [hf'] at hf
      injection hf with hf
      exact hf ▸ hcase.1
    · obtain ⟨e, -, -, hres⟩ := hcase
      exact absurd hres (by simp)

/-- C3 witness: with the concrete transient environment, a tick at counter 0
increments the counter to 1 and re-arms the timer for a minute. -/
theorem renewal_counter_reset_increment_stop_witness :
    renewalTick wEnvTransient 0 wStT =
      some (TickResult.cont { wStT with errorCount := wStT.errorCount + 1, timerDur := minute }) :=
  (renewal_counter_reset_increment_stop wEnvTransient 0 wStT
      { resp := none, renewAt := 0, err := some OCSPErr.couldNotPostOCSPRequest, posted := true }
      (by decide)).2.1 rfl (by decide)

/-- C7: `useOCSPStapling` transitions only from true to false.  Per tick and
per run, a true flag afterwards implies a true flag before (never
false→true); a non-transient fetch error makes the tick stop with the flag
set to false; and a constructed instance has its flag seeded by the
capability probe. -/
theorem useOCSPStapling_monotone_and_fatal_disable :
    (∀ env now st res, renewalTick env now st = some res →
      res.state.stapling.useOCSPStapling = true → st.stapling.useOCSPStapling = true)
    ∧ (∀ (env : FetchEnv) (now : Int) (st : SchedState) (fr : FetchResult) (e : OCSPErr),
        fetchOCSP env st.stapling.certificate = some fr → fr.err = some e →
        e ≠ OCSPErr.couldNotPostOCSPRequest →
        renewalTick env now st = some (TickResult.stop
          { st with stapling := { st.stapling with useOCSPStapling := false } }))
    ∧ (∀ events st st', runEvents events st = some st' →
        st'.stapling.useOCSPStapling = true → st.stapling.useOCSPStapling = true)
    ∧ (∀ (envs : Nat → FetchEnv) (cancelled : Nat → Bool) (certificate : TLSCertificate)
        (s : Stapling), NewStapling envs cancelled certificate = some s →
        s.useOCSPStapling = true →
        Option.map Prod.fst (ocspStaplingCanBeUsed envs cancelled certificate) = some true) := by
  refine ⟨renewalTick_flag_mono, fun env now st fr e hf he hne => ?_, runEvents_flag_mono,
    fun envs cancelled certificate s hnew hflag => ?_⟩
  · simp only [renewalTick, hf, he]
    rw [if_neg hne]
  · rcases hcan : ocspStaplingCanBeUsed envs cancelled certificate with _ | res
    · rw [NewStapling, hcan] at hnew
      exact Option.noConfusion hnew
    · rw [NewStapling, hcan] at hnew
      have hnew' : ({ certificate := certificate, useOCSPStapling := res.1 } : Stapling) = s :=
        Option.some.inj hnew
      rw [← hnew'] at hflag
      exact congrArg some hflag

/-- C7 witness: a malformed OCSP response (a structural error) during a
renewal tick stops the loop with `useOCSPStapling` set to false. -/
theorem useOCSPStapling_monotone_and_fatal_disable_witness :
    renewalTick wEnvBadResp 0 wStT = some (TickResult.stop
      { wStT with stapling := { wStT.stapling with useOCSPStapling := false } }) :=
  useOCSPStapling_monotone_and_fatal_disable.2.1 wEnvBadResp 0 wStT
    { resp := none, renewAt := 0, err := some OCSPErr.couldNotParseResponse, posted := true }
    OCSPErr.couldNotParseResponse (by decide) rfl (by decide)

/-- C10: `fetchOCSP` receives the bundle by value and a tick rebinds only
the bundle's `ocspStaple` field (plus loop-local
counter/timer/`useOCSPStapling` state); the chain bytes are preserved by
every tick and by every whole run of the renewal loop. -/
theorem tick_and_run_frame :
    (∀ env now st res, renewalTick env now st = some res →
      res.state.stapling.certificate =
        { st.stapling.certificate with ocspStaple := res.state.stapling.certificate.ocspStaple })
    ∧ (∀ env now st res, renewalTick env now st = some res →
      res.state.stapling.certificate.certificate = st.stapling.certificate.certificate)
    ∧ (∀ events st st', runEvents events st = some st' →
      st'.stapling.certificate.certificate = st.stapling.certificate.certificate) :=
  ⟨renewalTick_frame,
   fun env now st res h => by rw [renewalTick_frame env now st res h],
   runEvents_chain⟩

/-- C10 witness: one successful tick plus an exhausted schedule preserve the
concrete bundle's chain bytes. -/
theorem tick_and_run_frame_witness :
    ({ stapling :=
          { certificate := { certificate := [wLeafBytes, wIssuerBytes], ocspStaple := some [7, 7] },
            useOCSPStapling := true },
        errorCount := 0,
        timerDur := 100 } : SchedState).stapling.certificate.certificate =
      wStT.stapling.certificate.certificate :=
  tick_and_run_frame.2.2 [SchedEvent.tick wEnvOk 0] wStT
    { stapling :=
        { certificate := { certificate := [wLeafBytes, wIssuerBytes], ocspStaple := some [7, 7] },
          useOCSPStapling := true },
      errorCount := 0,
      timerDur := 100 } (by decide)

/-- C9 (amended): every renewal tick acquires the lock, then performs the
fetch, and releases the lock only afterwards — the unique `lockRelease` of a
tick's action trace comes strictly after the `fetchCall`, so the exclusive
critical section encloses the network fetch. -/
theorem tick_trace_lock_held_across_fetch (env : FetchEnv) (st : SchedState)
    (tr : List TickAction) (h : tickTrace env st = some tr) :
    tr.get? 0 = some TickAction.lockAcquire
    ∧ tr.get? 1 = some TickAction.fetchCall
    ∧ TickAction.lockRelease ∈ tr
    ∧ 1 < tr.indexOf TickAction.lockRelease
    ∧ tr.count TickAction.lockRelease = 1 := by
  rcases hf : fetchOCSP env st.stapling.certificate with _ | fr
  · rw [tickTrace, hf] at h
    exact Option.noConfusion h
  · rw [tickTrace, hf] at h
    rcases he : fr.err with _ | e
    · simp only [he, Option.some.injEq] at h
      rw [← h]
      decide
    · simp only [he] at h
      by_cases htr : e = OCSPErr.couldNotPostOCSPRequest
      · rw [if_pos htr] at h
        by_cases hcnt : st.errorCount > retry
        · rw [if_pos hcnt] at h
          injection h with h
          rw [← h]
          decide
        · rw [if_neg hcnt] at h
          injection h with h
          rw [← h]
          decide
      · rw [if_neg htr] at h
        injection h with h
        rw [← h]
        decide

/-- C9 counterexample: in a concrete successful tick the only lock release
is the last of the five actions, three positions after the fetch call — the
lock is held across the network fetch, not only across the synchronous state
mutation. -/
theorem lock_held_across_fetch_counterexample :
    tickTrace wEnvOk wStT = some [TickAction.lockAcquire, TickAction.fetchCall,
      TickAction.installStaple, TickAction.timerReset, TickAction.lockRelease]
    ∧ [TickAction.lockAcquire, TickAction.fetchCall, TickAction.installStaple,
        TickAction.timerReset, TickAction.lockRelease].indexOf TickAction.fetchCall = 1
    ∧ [TickAction.lockAcquire, TickAction.fetchCall, TickAction.installStaple,
        TickAction.timerReset, TickAction.lockRelease].indexOf TickAction.lockRelease = 4
    ∧ [TickAction.lockAcquire, TickAction.fetchCall, TickAction.installStaple,
        TickAction.timerReset, TickAction.lockRelease].count TickAction.lockRelease = 1 := by
  decide

/-- C9 witness: the amended theorem applied to the concrete transient-error
trace. -/
theorem tick_trace_lock_held_across_fetch_witness :
    [TickAction.lockAcquire, TickAction.fetchCall, TickAction.lockRelease,
        TickAction.timerReset].get? 0 = some TickAction.lockAcquire
    ∧ [TickAction.lockAcquire, TickAction.fetchCall, TickAction.lockRelease,
        TickAction.timerReset].get? 1 = some TickAction.fetchCall
    ∧ TickAction.lockRelease ∈ [TickAction.lockAcquire, TickAction.fetchCall,
        TickAction.lockRelease, TickAction.timerReset]
    ∧ 1 < [TickAction.lockAcquire, TickAction.fetchCall, TickAction.lockRelease,
        TickAction.timerReset].indexOf TickAction.lockRelease
    ∧ [TickAction.lockAcquire, TickAction.fetchCall, TickAction.lockRelease,
        TickAction.timerReset].count TickAction.lockRelease = 1 :=
  tick_trace_lock_held_across_fetch wEnvTransient wStT
    [TickAction.lockAcquire, TickAction.fetchCall, TickAction.lockRelease,
      TickAction.timerReset] (by decide)

/-- `auxWaitsN` produces exactly one wait per attempt. -/
lemma auxWaitsN_length (i : Nat) (d : Int) (n : Nat) : (auxWaitsN i d n).length = n := by
  induction n generalizing i d with
  | zero => rfl
  | succ n ih => simp [auxWaitsN, ih]

/-- If the first `k` attempts from index `i` are transient, nothing is
cancelled through attempt `k`, and attempt `i + k` succeeds within the
remaining fuel, the prober loop returns true after exactly `k + 1` further
attempts. -/
lemma aux_success_eq (envs : Nat → FetchEnv) (cancelled : Nat → Bool)
    (certificate : TLSCertificate) :
    ∀ (k fuel i : Nat) (d : Int) (waits : List Int), k < fuel →
    (∀ j, j ≤ k → cancelled (i + j) = false) →
    (∀ j, j < k → attemptTransient envs certificate (i + j)) →
    attemptSucceeds envs certificate (i + k) →
    ocspStaplingCanBeUsedAux envs cancelled certificate fuel i d waits =
      some (true, waits ++ auxWaitsN i d (k + 1)) := by
  intro k
  induction k with
  | zero =>
    intro fuel i d waits hk hnc htr hsucc
    obtain ⟨f, rfl⟩ : ∃ f, fuel = f + 1 := ⟨fuel - 1, by omega⟩
    obtain ⟨fr, hfr, herr⟩ := hsucc
    have hci : cancelled i = false := by
      have := hnc 0 (Nat.le_refl 0)
      rwa [Nat.add_zero] at this
    rw [Nat.add_zero] at hfr
    simp [ocspStaplingCanBeUsedAux, hci, hfr, herr, auxWaitsN]
  | succ k ih =>
    intro fuel i d waits hk hnc htr hsucc
    obtain ⟨f, rfl⟩ : ∃ f, fuel = f + 1 := ⟨fuel - 1, by omega⟩
    have hci : cancelled i = false := by
      have := hnc 0 (Nat.zero_le _)
      rwa [Nat.add_zero] at this
    obtain ⟨fr, hfr, herr⟩ := htr 0 (by omega)
    rw [Nat.add_zero] at hfr
    have hrec := ih f (i + 1) (second * ((i : Int) + 1)) (waits ++ [d]) (by omega)
      (fun j hj => by
        have := hnc (j + 1) (by omega)
        rwa [show i + (j + 1) = i + 1 + j from by omega] at this)
      (fun j hj => by
        have := htr (j + 1) (by omega)
        rwa [show i + (j + 1) = i + 1 + j from by omega] at this)
      (by
        have := hsucc
        rwa [show i + (k + 1) = i + 1 + k from by omega] at this)
    simp [ocspStaplingCanBeUsedAux, hci, hfr, herr, hrec, auxWaitsN]

/-- If the first `k` attempts from index `i` are transient, nothing is
cancelled through attempt `k`, and attempt `i + k` fails with any
non-transient error within the remaining fuel, the loop reports unusable
after exactly `k + 1` further attempts. -/
lemma aux_fatal_eq (envs : Nat → FetchEnv) (cancelled : Nat → Bool)
    (certificate : TLSCertificate) :
    ∀ (k fuel i : Nat) (d : Int) (waits : List Int) (fr : FetchResult) (e : OCSPErr), k < fuel →
    (∀ j, j ≤ k → cancelled (i + j) = false) →
    (∀ j, j < k → attemptTransient envs certificate (i + j)) →
    fetchOCSP (envs (i + k)) certificate = some fr → fr.err = some e →
    e ≠ OCSPErr.couldNotPostOCSPRequest →
    ocspStaplingCanBeUsedAux envs cancelled certificate fuel i d waits =
      some (false, waits ++ auxWaitsN i d (k + 1)) := by
  intro k
  induction k with
  | zero =>
    intro fuel i d waits fr e hk hnc htr hfr herr hne
    obtain ⟨f, rfl⟩ : ∃ f, fuel = f + 1 := ⟨fuel - 1, by omega⟩
    have hci : cancelled i = false := by
      have := hnc 0 (Nat.le_refl 0)
      rwa [Nat.add_zero] at this
    rw [Nat.add_zero] at hfr
    simp [ocspStaplingCanBeUsedAux, hci, hfr, herr, hne, auxWaitsN]
  | succ k ih =>
    intro fuel i d waits fr e hk hnc htr hfr herr hne
    obtain ⟨f, rfl⟩ : ∃ f, fuel = f + 1 := ⟨fuel - 1, by omega⟩
    have hci : cancelled i = false := by
      have := hnc 0 (Nat.zero_le _)
      rwa [Nat.add_zero] at this
    obtain ⟨fr0, hfr0, herr0⟩ := htr 0 (by omega)
    rw [Nat.add_zero] at hfr0
    have hrec := ih f (i + 1) (second * ((i : Int) + 1)) (waits ++ [d]) fr e (by omega)
      (fun j hj => by
        have := hnc (j + 1) (by omega)
        rwa [show i + (j + 1) = i + 1 + j from by omega] at this)
      (fun j hj => by
        have := htr (j + 1) (by omega)
        rwa [show i + (j + 1) = i + 1 + j from by omega] at this)
      (by rwa [show i + (k + 1) = i + 1 + k from by omega] at hfr) herr hne
    simp [ocspStaplingCanBeUsedAux, hci, hfr0, herr0, hrec, auxWaitsN]

/-- If the first `k` attempts from index `i` are transient with nothing
cancelled, and the cancellation signal is ready at iteration `i + k` within
the remaining fuel, the loop reports unusable after exactly `k` further
attempts (the cancelled iteration performs no fetch). -/
lemma aux_cancel_eq (envs : Nat → FetchEnv) (cancelled : Nat → Bool)
    (certificate : TLSCertificate) :
    ∀ (k fuel i : Nat) (d : Int) (waits : List Int), k < fuel →
    (∀ j, j < k → cancelled (i + j) = false) →
    (∀ j, j < k → attemptTransient envs certificate (i + j)) →
    cancelled (i + k) = true →
    ocspStaplingCanBeUsedAux envs cancelled certificate fuel i d waits =
      some (false, waits ++ auxWaitsN i d k) := by
  intro k
  induction k with
  | zero =>
    intro fuel i d waits hk hnc htr hcan
    obtain ⟨f, rfl⟩ : ∃ f, fuel = f + 1 := ⟨fuel - 1, by omega⟩
    rw [Nat.add_zero] at hcan
    simp [ocspStaplingCanBeUsedAux, hcan, auxWaitsN]
  | succ k ih =>
    intro fuel i d waits hk hnc htr hcan
    obtain ⟨f, rfl⟩ : ∃ f, fuel = f + 1 := ⟨fuel - 1, by omega⟩
    have hci : cancelled i = false := by
      have := hnc 0 (by omega)
      rwa [Nat.add_zero] at this
    obtain ⟨fr0, hfr0, herr0⟩ := htr 0 (by omega)
    rw [Nat.add_zero] at hfr0
    have hrec := ih f (i + 1) (second * ((i : Int) + 1)) (waits ++ [d]) (by omega)
      (fun j hj => by
        have := hnc (j + 1) (by omega)
        rwa [show i + (j + 1) = i + 1 + j from by omega] at this)
      (fun j hj => by
        have := htr (j + 1) (by omega)
        rwa [show i + (j + 1) = i + 1 + j from by omega] at this)
      (by rwa [show i + (k + 1) = i + 1 + k from by omega] at hcan)
    simp [ocspStaplingCanBeUsedAux, hci, hfr0, herr0, hrec, auxWaitsN]

/-- Soundness: if the prober loop returns true, some attempt succeeded after
a prefix of transient failures with no cancellation. -/
lemma aux_true_sound (envs : Nat → FetchEnv) (cancelled : Nat → Bool)
    (certificate : TLSCertificate) :
    ∀ (fuel i : Nat) (d : Int) (waits w : List Int),
    ocspStaplingCanBeUsedAux envs cancelled certificate fuel i d waits = some (true, w) →
    ∃ k, k < fuel ∧ (∀ j, j ≤ k → cancelled (i + j) = false)
      ∧ (∀ j, j < k → attemptTransient envs certificate (i + j))
      ∧ attemptSucceeds envs certificate (i + k) := by
  intro fuel
  induction fuel with
  | zero =>
    intro i d waits w h
    simp [ocspStaplingCanBeUsedAux] at h
  | succ f ih =>
    intro i d waits w h
    simp only [ocspStaplingCanBeUsedAux] at h
    by_cases hci : cancelled i = true
    · rw [if_pos hci] at h
      simp at h
    · rw [if_neg hci] at h
      rcases hf : fetchOCSP (envs i) certificate with _ | fr
      · rw [hf] at h
        exact Option.noConfusion h
      · rw [hf] at h
        rcases he : fr.err with _ | e
        · refine ⟨0, by omega, ?_, fun j hj => absurd hj (by omega), ?_⟩
          · intro j hj
            have hj0 : j = 0 := by omega
            rw [hj0, Nat.add_zero]
            exact Bool.not_eq_true _ |>.mp hci |> fun hx => hx
          · rw [Nat.add_zero]
            exact ⟨fr, hf, he⟩
        · simp only [he] at h
          by_cases htr : e = OCSPErr.couldNotPostOCSPRequest
          · rw [if_neg (by simp [htr])] at h
            obtain ⟨k, hk, hnc, htrp, hsucc⟩ := ih (i + 1) (second * ((i : Int) + 1))
              (waits ++ [d]) w h
            refine ⟨k + 1, by omega, ?_, ?_, ?_⟩
            · intro j hj
              rcases j with _ | j
              · rw [Nat.add_zero]
                exact Bool.not_eq_true _ |>.mp hci |> fun hx => hx
              · have := hnc j (by omega)
                rwa [show i + 1 + j = i + (j + 1) from by omega] at this
            · intro j hj
              rcases j with _ | j
              · rw [Nat.add_zero]
                exact ⟨fr, hf, by rw [he, htr]⟩
              · have := htrp j (by omega)
                rwa [show i + 1 + j = i + (j + 1) from by omega] at this
            · rwa [show i + 1 + k = i + (k + 1) from by omega] at hsucc
          · rw [if_pos htr] at h
            simp at h

/-- C5: if every fetch attempt fails with the transient transport error and
cancellation never fires, the capability prober performs exactly `retry = 10`
attempts — the first after the minimal initial delay of one millisecond, the
rest after the strictly increasing waits 1s, 2s, …, 9s — and reports
unusable. -/
theorem prober_all_transient_ten_attempts (envs : Nat → FetchEnv) (cancelled : Nat → Bool)
    (certificate : TLSCertificate)
    (h : ∀ i, fetchOCSP (envs i) certificate =
      some { resp := none, renewAt := 0, err := some OCSPErr.couldNotPostOCSPRequest, posted := true })
    (hc : ∀ i, cancelled i = false) :
    ocspStaplingCanBeUsed envs cancelled certificate =
      some (false, [millisecond, second, 2 * second, 3 * second, 4 * second,
        5 * second, 6 * second, 7 * second, 8 * second, 9 * second])
    ∧ ([millisecond, second, 2 * second, 3 * second, 4 * second,
        5 * second, 6 * second, 7 * second, 8 * second, 9 * second] : List Int).length = retry
    ∧ List.Chain' (fun a b => a < b) [millisecond, second, 2 * second, 3 * second, 4 * second,
        5 * second, 6 * second, 7 * second, 8 * second, 9 * second]
    ∧ millisecond < second := by
  refine ⟨?_, by decide, by norm_num [List.chain'_cons, millisecond, second], by decide⟩
  simp [ocspStaplingCanBeUsed, ocspStaplingCanBeUsedAux, retry, h, hc, second, millisecond]

/-- C5 witness: the concrete always-failing transport makes the prober
report unusable after the ten listed waits. -/
theorem prober_all_transient_ten_attempts_witness :
    ocspStaplingCanBeUsed (fun _ => wEnvTransient) (fun _ => false) wBundle =
      some (false, [millisecond, second, 2 * second, 3 * second, 4 * second,
        5 * second, 6 * second, 7 * second, 8 * second, 9 * second])
    ∧ ([millisecond, second, 2 * second, 3 * second, 4 * second,
        5 * second, 6 * second, 7 * second, 8 * second, 9 * second] : List Int).length = retry
    ∧ List.Chain' (fun a b => a < b) [millisecond, second, 2 * second, 3 * second, 4 * second,
        5 * second, 6 * second, 7 * second, 8 * second, 9 * second]
    ∧ millisecond < second :=
  prober_all_transient_ten_attempts (fun _ => wEnvTransient) (fun _ => false) wBundle
    (fun _ => rfl) (fun _ => rfl)

/-- C6: the capability prober reports usable exactly when some attempt
succeeds after a transient-only, uncancelled prefix within the ceiling; a
first success at attempt `k` ends the loop after `k + 1` attempts; a
non-transient error at attempt `k` stops it immediately, unusable, after
`k + 1` attempts; cancellation while waiting stops it immediately, unusable,
with no further attempt (and `auxWaitsN` records one wait per attempt). -/
theorem prober_iff_and_stop_behavior (envs : Nat → FetchEnv) (cancelled : Nat → Bool)
    (certificate : TLSCertificate) :
    ((Option.map Prod.fst (ocspStaplingCanBeUsed envs cancelled certificate) = some true) ↔
      ∃ k, k < retry ∧ (∀ j, j ≤ k → cancelled j = false)
        ∧ (∀ j, j < k → attemptTransient envs certificate j)
        ∧ attemptSucceeds envs certificate k)
    ∧ (∀ k, k < retry → (∀ j, j ≤ k → cancelled j = false) →
        (∀ j, j < k → attemptTransient envs certificate j) →
        attemptSucceeds envs certificate k →
        ocspStaplingCanBeUsed envs cancelled certificate =
          some (true, auxWaitsN 0 millisecond (k + 1)))
    ∧ (∀ k fr e, k < retry → (∀ j, j ≤ k → cancelled j = false) →
        (∀ j, j < k → attemptTransient envs certificate j) →
        fetchOCSP (envs k) certificate = some fr → fr.err = some e →
        e ≠ OCSPErr.couldNotPostOCSPRequest →
        ocspStaplingCanBeUsed envs cancelled certificate =
          some (false, auxWaitsN 0 millisecond (k + 1)))
    ∧ (∀ k, k < retry → (∀ j, j < k → cancelled j = false) →
        (∀ j, j < k → attemptTransient envs certificate j) →
        cancelled k = true →
        ocspStaplingCanBeUsed envs cancelled certificate =
          some (false, auxWaitsN 0 millisecond k))
    ∧ (∀ i d n, (auxWaitsN i d n).length = n) := by
  refine ⟨⟨?_, ?_⟩, ?_, ?_, ?_, fun i d n => auxWaitsN_length i d n⟩
  · intro hmap
    rcases hres : ocspStaplingCanBeUsed envs cancelled certificate with _ | res
    · rw [hres] at hmap
      exact Option.noConfusion hmap
    · rw [hres] at hmap
      obtain ⟨b, w⟩ := res
      have hb : b = true := by simpa using hmap
      subst hb
      obtain ⟨k, hk, hnc, htr, hsucc⟩ :=
        aux_true_sound envs cancelled certificate retry 0 millisecond [] w hres
      exact ⟨k, hk, fun j hj => by simpa using hnc j hj,
        fun j hj => by simpa using htr j hj, by simpa using hsucc⟩
  · rintro ⟨k, hk, hnc, htr, hsucc⟩
    have heq := aux_success_eq envs cancelled certificate k retry 0 millisecond [] hk
      (fun j hj => by simpa using hnc j hj)
      (fun j hj => by simpa using htr j hj)
      (by simpa using hsucc)
    rw [ocspStaplingCanBeUsed, heq]
    rfl
  · intro k hk hnc htr hsucc
    have heq := aux_success_eq envs cancelled certificate k retry 0 millisecond [] hk
      (fun j hj => by simpa using hnc j hj)
      (fun j hj => by simpa using htr j hj)
      (by simpa using hsucc)
    rw [ocspStaplingCanBeUsed, heq, List.nil_append]
  · intro k fr e hk hnc htr hfr herr hne
    have heq := aux_fatal_eq envs cancelled certificate k retry 0 millisecond [] fr e hk
      (fun j hj => by simpa using hnc j hj)
      (fun j hj => by simpa using htr j hj)
      (by simpa using hfr) herr hne
    rw [ocspStaplingCanBeUsed, heq, List.nil_append]
  · intro k hk hnc htr hcan
    have heq := aux_cancel_eq envs cancelled certificate k retry 0 millisecond [] hk
      (fun j hj => by simpa using hnc j hj)
      (fun j hj => by simpa using htr j hj)
      (by simpa using hcan)
    rw [ocspStaplingCanBeUsed, heq, List.nil_append]

/-- C6 witness: with the concrete all-good environment the prober succeeds
on the very first attempt, after the single one-millisecond wait. -/
theorem prober_iff_and_stop_behavior_witness :
    ocspStaplingCanBeUsed (fun _ => wEnvOk) (fun _ => false) wBundle =
      some (true, auxWaitsN 0 millisecond 1) :=
  (prober_iff_and_stop_behavior (fun _ => wEnvOk) (fun _ => false) wBundle).2.1 0
    (by decide) (fun _ _ => rfl) (fun j hj => absurd hj (by omega))
    ⟨{ resp := some [7, 7], renewAt := 100, err := none, posted := true }, by decide, rfl⟩

/-- C2 (amended): when the response body is read but `Body.Close` fails,
`fetchOCSP` returns the already-read bytes together with
`ErrCouldNotCloseBody` and a zero next-update time; but both callers treat
the error as fatal — the renewal scheduler's `default` branch sets
`useOCSPStapling` to false and returns, discarding the returned bytes, and
a capability probe whose first attempt hits the close failure reports
unusable after that single attempt. -/
theorem close_failure_partial_bytes_fatal (env : FetchEnv) (certificate : TLSCertificate)
    (leafBytes issuerBytes : ByteSeq) (restChain : List ByteSeq) (c ci : X509Cert)
    (req data : ByteSeq) (now : Int) (st : SchedState)
    (hchain : certificate.certificate = leafBytes :: issuerBytes :: restChain)
    (hp : env.parseCert leafBytes = some c)
    (hs : c.ocspServer.length ≠ 0)
    (hpi : env.parseCert issuerBytes = some ci)
    (hcr : env.createRequest c ci = some req)
    (hpost : env.post (c.ocspServer.headD "") req = some { body := some data, closeOk := false }) :
    fetchOCSP env certificate =
      some { resp := some data, renewAt := 0, err := some OCSPErr.couldNotCloseBody, posted := true }
    ∧ (st.stapling.certificate = certificate →
        renewalTick env now st = some (TickResult.stop
          { st with stapling := { st.stapling with useOCSPStapling := false } }))
    ∧ (∀ (envs : Nat → FetchEnv) (cancelled : Nat → Bool),
        envs 0 = env → cancelled 0 = false →
        ocspStaplingCanBeUsed envs cancelled certificate = some (false, [millisecond])) := by
  have hfetch : fetchOCSP env certificate =
      some { resp := some data, renewAt := 0, err := some OCSPErr.couldNotCloseBody, posted := true } := by
    simp only [fetchOCSP, hchain, hp, if_neg hs, hpi, hcr, hpost, List.length_cons]
    simp
  refine ⟨hfetch, fun hst => ?_, fun envs cancelled henv hcanc => ?_⟩
  · rw [renewalTick, hst, hfetch]
    rfl
  · have hfr : fetchOCSP (envs 0) certificate =
        some { resp := some data, renewAt := 0, err := some OCSPErr.couldNotCloseBody, posted := true } := by
      rw [henv]
      exact hfetch
    have heq := aux_fatal_eq envs cancelled certificate 0 retry 0 millisecond []
      { resp := some data, renewAt := 0, err := some OCSPErr.couldNotCloseBody, posted := true }
      OCSPErr.couldNotCloseBody (by decide)
      (fun j hj => by
        have hj0 : j = 0 := by omega
        subst hj0
        simpa using hcanc)
      (fun j hj => absurd hj (by omega))
      hfr rfl (by decide)
    rw [ocspStaplingCanBeUsed, heq]
    simp [auxWaitsN]

/-- C2 counterexample: in a concrete run the body-close failure returns the
read bytes, yet the renewal tick's `default` branch disables OCSP stapling
and stops the scheduler, and the capability prober reports unusable after
its first attempt. -/
theorem close_failure_disables_counterexample :
    fetchOCSP wEnvCloseFail wBundle =
      some { resp := some [7, 7], renewAt := 0, err := some OCSPErr.couldNotCloseBody, posted := true }
    ∧ wStT.stapling.useOCSPStapling = true
    ∧ renewalTick wEnvCloseFail 0 wStT =
        some (TickResult.stop
          { wStT with stapling := { wStT.stapling with useOCSPStapling := false } })
    ∧ ocspStaplingCanBeUsed (fun _ => wEnvCloseFail) (fun _ => false) wBundle =
        some (false, [millisecond]) := by decide

/-- C2 witness: the amended theorem applied to the concrete close-failure
environment. -/
theorem close_failure_partial_bytes_fatal_witness :
    fetchOCSP wEnvCloseFail wBundle =
      some { resp := some [7, 7], renewAt := 0, err := some OCSPErr.couldNotCloseBody, posted := true }
    ∧ renewalTick wEnvCloseFail 5 wStT =
        some (TickResult.stop
          { wStT with stapling := { wStT.stapling with useOCSPStapling := false } })
    ∧ ocspStaplingCanBeUsed (fun _ => wEnvCloseFail) (fun _ => false) wBundle =
        some (false, [millisecond]) := by
  have h := close_failure_partial_bytes_fatal wEnvCloseFail wBundle wLeafBytes wIssuerBytes []
    wLeaf wIssuer [9] [7, 7] 5 wStT (by decide) (by decide) (by decide) (by decide) (by decide)
    (by decide)
  exact ⟨h.1, h.2.1 (by decide), h.2.2 (fun _ => wEnvCloseFail) (fun _ => false) rfl rfl⟩

end OcspStapling
